import Mathlib

/-
  Verification development for the pyelevate dependency-upgrade tool.
  The definitions below are shallow embeddings of the Rust source
  (src/models.rs, src/simulator.rs, src/resolver.rs, src/security.rs,
  src/pypi.rs, src/parser.rs, src/app.rs); theorems settle the frozen
  behavioural claims about them.
-/

namespace Pyelevate

/-! ## String utilities

Rust `String`/`&str` ordering is lexicographic on UTF-8 bytes; comparing
Unicode code points char-by-char yields the same order, so strings are
modelled as their `List Char` data. -/

/-- Lexicographic strict order on character lists (Rust `str` `<`). -/
def lexLt : List Char → List Char → Bool
  | [], [] => false
  | [], _ :: _ => true
  | _ :: _, [] => false
  | a :: as, b :: bs => if a < b then true else if b < a then false else lexLt as bs

/-- Rust `a < b` on strings. -/
def strLt (a b : String) : Bool := lexLt a.data b.data

/-- Rust `a <= b` on strings. -/
def strLe (a b : String) : Bool := !(strLt b a)

/-- Value of a list of decimal digits (most significant first). -/
def natOfDigits (l : List Char) : Nat :=
  l.foldl (fun acc c => acc * 10 + (c.toNat - 48)) 0

/-- Split a character list on a separator, keeping empty components
(Rust `str::split`). -/
def splitOn (sep : Char) : List Char → List (List Char)
  | [] => [[]]
  | c :: rest =>
    match splitOn sep rest with
    | [] => [[c]]
    | g :: gs => if c = sep then [] :: g :: gs else (c :: g) :: gs

/-! ## The `semver` crate (dependency of src/models.rs)

`compare_versions` delegates to `semver::Version::parse` and the crate's
`Ord` instance.  The crate is a third-party dependency, modelled here
from its documented grammar and comparison rules: a version is
`MAJOR.MINOR.PATCH` of numeric identifiers without leading zeros,
optionally `-` pre-release and `+` build metadata, identifiers drawn from
ASCII alphanumerics and hyphen; precedence compares major, minor, patch,
then pre-release (absence of pre-release ranks highest; numeric
identifiers below alphanumeric ones), with build metadata as the crate's
final tie-breaker. -/

/-- A pre-release identifier: numeric (no leading zeros) or alphanumeric. -/
inductive PreId where
  | num (n : Nat)
  | alpha (s : String)
deriving DecidableEq

structure SemVer where
  major : Nat
  minor : Nat
  patch : Nat
  pre : List PreId
  build : List String
deriving DecidableEq

/-- Characters allowed in semver identifiers: ASCII alphanumerics and `-`. -/
def isIdentChar (c : Char) : Bool := c.isAlphanum || c = '-'

/-- Parse a numeric component (`major`/`minor`/`patch`): a nonempty digit
run with no leading zero; returns its value and the rest of the input. -/
def parseNumPart (l : List Char) : Option (Nat × List Char) :=
  let digits := l.takeWhile Char.isDigit
  let rest := l.dropWhile Char.isDigit
  if digits.isEmpty then none
  else if digits.length > 1 && digits.headD '0' = '0' then none
  else some (natOfDigits digits, rest)

/-- Classify one pre-release identifier. -/
def classifyPre (ident : List Char) : Option PreId :=
  if ident.isEmpty then none
  else if !ident.all isIdentChar then none
  else if ident.all Char.isDigit then
    if ident.length > 1 && ident.headD '0' = '0' then none
    else some (PreId.num (natOfDigits ident))
  else some (PreId.alpha ⟨ident⟩)

/-- Classify one build-metadata identifier (leading zeros allowed). -/
def classifyBuild (ident : List Char) : Option String :=
  if ident.isEmpty then none
  else if !ident.all isIdentChar then none
  else some ⟨ident⟩

def parsePreList (l : List Char) : Option (List PreId) :=
  (splitOn '.' l).mapM classifyPre

def parseBuildList (l : List Char) : Option (List String) :=
  (splitOn '.' l).mapM classifyBuild

/-- `semver::Version::parse`. -/
def parseSemver (s : String) : Option SemVer :=
  match parseNumPart s.data with
  | none => none
  | some (maj, r1) =>
    match r1 with
    | '.' :: r2 =>
      match parseNumPart r2 with
      | none => none
      | some (minv, r3) =>
        match r3 with
        | '.' :: r4 =>
          match parseNumPart r4 with
          | none => none
          | some (pat, r5) =>
            match r5 with
            | [] => some ⟨maj, minv, pat, [], []⟩
            | '-' :: rest =>
              let preChars := rest.takeWhile (fun c => c ≠ '+')
              let after := rest.dropWhile (fun c => c ≠ '+')
              match parsePreList preChars with
              | none => none
              | some pre =>
                match after with
                | [] => some ⟨maj, minv, pat, pre, []⟩
                | '+' :: b => (parseBuildList b).map (fun bs => ⟨maj, minv, pat, pre, bs⟩)
                | _ => none
            | '+' :: b => (parseBuildList b).map (fun bs => ⟨maj, minv, pat, [], bs⟩)
            | _ => none
        | _ => none
    | _ => none

/-- Lexicographic comparison of character lists. -/
def lexCmp : List Char → List Char → Ordering
  | [], [] => Ordering.eq
  | [], _ :: _ => Ordering.lt
  | _ :: _, [] => Ordering.gt
  | a :: as, b :: bs =>
    if a < b then Ordering.lt
    else if b < a then Ordering.gt
    else lexCmp as bs

def cmpPreId : PreId → PreId → Ordering
  | PreId.num a, PreId.num b => compare a b
  | PreId.num _, PreId.alpha _ => Ordering.lt
  | PreId.alpha _, PreId.num _ => Ordering.gt
  | PreId.alpha a, PreId.alpha b => lexCmp a.data b.data

def cmpPreList : List PreId → List PreId → Ordering
  | [], [] => Ordering.eq
  | [], _ :: _ => Ordering.lt
  | _ :: _, [] => Ordering.gt
  | a :: as, b :: bs =>
    match cmpPreId a b with
    | Ordering.eq => cmpPreList as bs
    | o => o

/-- `Ord` for `Prerelease`: a real release compares greater than any
pre-release. -/
def cmpPre (a b : List PreId) : Ordering :=
  match a, b with
  | [], [] => Ordering.eq
  | [], _ :: _ => Ordering.gt
  | _ :: _, [] => Ordering.lt
  | _, _ => cmpPreList a b

/-- `Ord` for one build-metadata identifier pair: all-digit identifiers
compare by zero-trimmed length, then digits, then raw length; otherwise
lexicographically. -/
def cmpBuildId (a b : String) : Ordering :=
  if a.data.all Char.isDigit && b.data.all Char.isDigit then
    let ta := a.data.dropWhile (fun c => c = '0')
    let tb := b.data.dropWhile (fun c => c = '0')
    match compare ta.length tb.length with
    | Ordering.eq =>
      match lexCmp ta tb with
      | Ordering.eq => compare a.length b.length
      | o => o
    | o => o
  else lexCmp a.data b.data

def cmpBuildList : List String → List String → Ordering
  | [], [] => Ordering.eq
  | [], _ :: _ => Ordering.lt
  | _ :: _, [] => Ordering.gt
  | a :: as, b :: bs =>
    match cmpBuildId a b with
    | Ordering.eq => cmpBuildList as bs
    | o => o

/-- `Ord` for `semver::Version`. -/
def cmpSemver (a b : SemVer) : Ordering :=
  match compare a.major b.major with
  | Ordering.eq =>
    match compare a.minor b.minor with
    | Ordering.eq =>
      match compare a.patch b.patch with
      | Ordering.eq =>
        match cmpPre a.pre b.pre with
        | Ordering.eq => cmpBuildList a.build b.build
        | o => o
      | o => o
    | o => o
  | o => o

/-- `a <= b` on parsed versions. -/
def semverLe (a b : SemVer) : Bool :=
  match cmpSemver a b with
  | Ordering.gt => false
  | _ => true

/-! ## src/models.rs -/

inductive VersionStatus where
  | Patch
  | Minor
  | Major
  | Prerelease
  | Unknown
  | UpToDate
  | Error
  | Vulnerable
deriving DecidableEq

/-- `compare_versions` from src/models.rs. -/
def compare_versions (current latest : String) : VersionStatus :=
  match parseSemver current, parseSemver latest with
  | some curr, some latest_ver =>
    if semverLe latest_ver curr then VersionStatus.UpToDate
    else if curr.major < latest_ver.major then VersionStatus.Major
    else if curr.minor < latest_ver.minor then VersionStatus.Minor
    else VersionStatus.Patch
  | _, _ =>
    if strLe latest current then VersionStatus.UpToDate else VersionStatus.Unknown

inductive DependencySource where
  | PyPI
  | Git (url : String) (ref_spec : Option String)
  | LocalPath (path : String) (editable : Bool)
  | Url (url : String)
  | Unknown
deriving DecidableEq

inductive VersionConstraint where
  | Pinned (v : String)
  | GreaterEqual (v : String)
  | Less (v : String)
  | Range (low high : String)
  | Compatible (v : String)
  | Unspecified
deriving DecidableEq

inductive SecurityStatus where
  | Vulnerable (cve_count : Nat)
  | Safe
  | Unknown
deriving DecidableEq

inductive Severity where
  | Critical
  | High
  | Medium
  | Low
deriving DecidableEq

structure SecurityAdvisory where
  id : String
  title : String
  severity : Severity
  affected_versions : List String
  fixed_version : Option String
  url : String
deriving DecidableEq

structure Changelog where
  version : String
  release_date : String
  changes : List String
  breaking_changes : List String
  deprecated : List String
  security_fixes : List String
deriving DecidableEq

structure PopularityData where
  downloads_last_month : Nat
  downloads_trend : List (String × Nat)
  weekly_downloads : Nat
  package_rank : Option Nat
deriving DecidableEq

structure Package where
  name : String
  current_version : String
  latest_version : Option String
  status : VersionStatus
  selected : Bool
  extras : List String
  constraint : VersionConstraint
  error : Option String
  source : DependencySource
  security_status : SecurityStatus
  changelog : Option Changelog
  popularity : Option PopularityData
  dependencies : List String
deriving DecidableEq

/-- `Changelog::has_breaking_changes`. -/
def Changelog.has_breaking_changes (c : Changelog) : Bool :=
  !c.breaking_changes.isEmpty

/-- `Changelog::risk_level` from src/models.rs. -/
def Changelog.risk_level (c : Changelog) : String :=
  if c.has_breaking_changes then "HIGH"
  else if !c.security_fixes.isEmpty then "LOW"
  else if !c.deprecated.isEmpty then "MEDIUM"
  else "LOW"

inductive RiskLevel where
  | Low
  | Medium
  | High
  | Critical
deriving DecidableEq

structure UpgradeSimulation where
  packages_to_upgrade : Nat
  major_changes : Nat
  conflicts_detected : Nat
  security_fixes : Nat
  risk_level : RiskLevel
deriving DecidableEq

/-! ## src/resolver.rs -/

structure Conflict where
  package : String
  reason : String
  current : String
  required : String
deriving DecidableEq

/-- The conflict pushed for one `(pkg, dep)` iteration of
`DependencyResolver::detect_conflicts`, if any: the first record named
`dep` must have a `latest_version` strictly above (string order) its
`current_version`. -/
def conflictFor (packages : List Package) (pkg : Package) (dep : String) : Option Conflict :=
  match packages.find? (fun p => p.name == dep) with
  | none => none
  | some dep_pkg =>
    match dep_pkg.latest_version with
    | none => none
    | some latest =>
      if strLt dep_pkg.current_version latest then
        some ⟨pkg.name,
              "Requires " ++ dep ++ " but upgrade to " ++ latest ++ " may break compatibility",
              dep_pkg.current_version, latest⟩
      else none

/-- Inner loop of `detect_conflicts` over one package's dependency list. -/
def depConflicts (packages : List Package) (pkg : Package) : List String → List Conflict
  | [] => []
  | dep :: rest =>
    match conflictFor packages pkg dep with
    | some c => c :: depConflicts packages pkg rest
    | none => depConflicts packages pkg rest

/-- Outer loop of `detect_conflicts` over the record set. -/
def conflictsLoop (packages : List Package) : List Package → List Conflict
  | [] => []
  | pkg :: rest => depConflicts packages pkg pkg.dependencies ++ conflictsLoop packages rest

/-- `DependencyResolver::detect_conflicts` from src/resolver.rs. -/
def detect_conflicts (packages : List Package) : List Conflict :=
  conflictsLoop packages packages

/-! ## src/simulator.rs -/

/-- `calculate_risk_level` from src/simulator.rs (including its redundant
security branch, whose result coincides with the final `else`). -/
def calculate_risk_level (major conflicts security total : Nat) : RiskLevel :=
  if conflicts > 0 ∧ major > 0 then RiskLevel.Critical
  else if major > total / 2 then RiskLevel.High
  else if major > 0 ∨ conflicts > 0 then RiskLevel.Medium
  else if security > 0 then RiskLevel.Low
  else RiskLevel.Low

/-- `UpgradeSimulator::simulate_upgrade` from src/simulator.rs. -/
def simulate_upgrade (packages : List Package) : UpgradeSimulation :=
  let selected := packages.filter (fun p => p.selected)
  let packages_to_upgrade := selected.length
  let major_changes := (selected.filter (fun p => p.status == VersionStatus.Major)).length
  let security_fixes := (selected.filter (fun p => p.status == VersionStatus.Vulnerable)).length
  let conflicts := (detect_conflicts packages).length
  ⟨packages_to_upgrade, major_changes, conflicts, security_fixes,
   calculate_risk_level major_changes conflicts security_fixes packages_to_upgrade⟩

/-! ## src/security.rs

`SecurityChecker` talks to the OSV endpoint; the network interaction is
embedded as an explicit fetch outcome, and the `HashMap` cache as an
association list. -/

/-- One entry of the `vulns` array in an OSV response: the fields the
code reads, each `none` when absent or not of the expected JSON type. -/
structure OsvVuln where
  id : Option String
  summary : Option String
  severity : Option String
deriving DecidableEq

/-- Outcome of the HTTP POST performed by `fetch_advisories`. -/
inductive FetchOutcome where
  | requestError
  | parseError
  | jsonWithoutVulns
  | vulns (vs : List OsvVuln)
deriving DecidableEq

/-- The `filter_map` body of `fetch_advisories`: drops entries missing a
string `id` or `summary`; missing severity defaults to `"MEDIUM"`. -/
def advisoryOfVuln (v : OsvVuln) : Option SecurityAdvisory :=
  match v.id with
  | none => none
  | some i =>
    match v.summary with
    | none => none
    | some s =>
      let severity_str := v.severity.getD "MEDIUM"
      some ⟨i, s,
            (if severity_str = "CRITICAL" then Severity.Critical
             else if severity_str = "HIGH" then Severity.High
             else if severity_str = "MEDIUM" then Severity.Medium
             else Severity.Low),
            [], none, "https://osv.dev/" ++ i⟩

/-- `SecurityChecker::fetch_advisories`: every path returns `Ok`; a
request error, an unparseable body, or a body without a `vulns` array all
fall through to `Ok(Vec::new())`. -/
def fetch_advisories (outcome : FetchOutcome) : List SecurityAdvisory :=
  match outcome with
  | FetchOutcome.vulns vs => vs.filterMap advisoryOfVuln
  | _ => []

/-- `HashMap::get` on an association-list cache. -/
def cacheGet {α : Type} (cache : List (String × α)) (name : String) : Option α :=
  (cache.find? (fun e => e.1 == name)).map (fun e => e.2)

/-- `SecurityChecker::check_package`: returns the updated package and the
updated advisory cache (`HashMap::insert` modelled as consing, which
shadows older entries for `cacheGet`). -/
def check_package (cache : List (String × List SecurityAdvisory)) (outcome : FetchOutcome)
    (pkg : Package) : Package × List (String × List SecurityAdvisory) :=
  if pkg.source ≠ DependencySource.PyPI then (pkg, cache)
  else
    match cacheGet cache pkg.name with
    | some cached =>
      ({pkg with security_status :=
          if cached.isEmpty then SecurityStatus.Safe
          else SecurityStatus.Vulnerable cached.length}, cache)
    | none =>
      let advisories := fetch_advisories outcome
      ({pkg with security_status :=
          if advisories.isEmpty then SecurityStatus.Safe
          else SecurityStatus.Vulnerable advisories.length},
       (pkg.name, advisories) :: cache)

/-! ## src/pypi.rs

`PyPIClient` holds a `HashMap<String, String>` version cache behind a
lock; the network is embedded as an oracle from package name to lookup
outcome (each spawned task is deterministic in the package name). -/

inductive LookupResult where
  | ok (version : String)
  | err (msg : String)
deriving DecidableEq

/-- Body of one spawned lookup task in `update_packages`: consult the
cache first, otherwise issue the network request. -/
def taskResult (cache : List (String × String)) (oracle : String → LookupResult)
    (name : String) : LookupResult :=
  match cacheGet cache name with
  | some v => LookupResult.ok v
  | none => oracle name

/-- The record mutation `update_packages` applies to the package matched
by name: on success write `latest_version`, recompute `status`, clear
`error`; on failure record the error and set `status = Error`. -/
def applyOutcome (p : Package) (res : LookupResult) : Package :=
  match res with
  | LookupResult.ok latest =>
    {p with latest_version := some latest,
            status := compare_versions p.current_version latest,
            error := none}
  | LookupResult.err e =>
    {p with error := some e, status := VersionStatus.Error}

/-- Apply one task outcome to the first record bearing its name
(`packages.iter_mut().find(|p| p.name == name)`). -/
def applyResult (name : String) (res : LookupResult) : List Package → List Package
  | [] => []
  | p :: rest =>
    if p.name == name then applyOutcome p res :: rest
    else p :: applyResult name res rest

/-- `PyPIClient::update_packages` from src/pypi.rs: one task is spawned
per record (no source filter), and the outcomes are joined back to the
records by name in spawn order. -/
def update_packages (oracle : String → LookupResult) (cache : List (String × String))
    (packages : List Package) : List Package :=
  (packages.map (fun p => (p.name, taskResult cache oracle p.name))).foldl
    (fun acc nr => applyResult nr.1 nr.2 acc) packages

/-- `PyPIClient::fetch_latest_version` control path: the result together
with whether the cache-hit short-circuit was taken. -/
def fetch_latest_version (cache : List (String × String)) (oracle : String → LookupResult)
    (name : String) : LookupResult × Bool :=
  match cacheGet cache name with
  | some v => (LookupResult.ok v, true)
  | none => (oracle name, false)

/-- `PyPIClient::clear_cache` from src/pypi.rs, faithful to the source:
the method acquires the write guard and immediately drops the guard
(`std::mem::drop(cache)`); no entry is ever removed, so on the data the
operation is the identity. -/
def clear_cache (cache : List (String × String)) : List (String × String) :=
  cache

/-! ## src/parser.rs

Requirement-line parsing.  Rust `str::trim` strips Unicode whitespace;
`Char.isWhitespace` covers the ASCII whitespace that occurs in
requirement files.  `str::to_lowercase` is modelled per character. -/

def trimLeft (l : List Char) : List Char := l.dropWhile Char.isWhitespace

def trimRight (l : List Char) : List Char :=
  (l.reverse.dropWhile Char.isWhitespace).reverse

/-- Rust `str::trim`. -/
def wsTrim (l : List Char) : List Char := trimRight (trimLeft l)

/-- Does `l` start with `pat`? -/
def startsWithL (pat l : List Char) : Bool :=
  match pat, l with
  | [], _ => true
  | _ :: _, [] => false
  | p :: ps, c :: cs => p == c && startsWithL ps cs

/-- Index of the first occurrence of `pat` in `l` (Rust `str::find`). -/
def findSubL (pat : List Char) : List Char → Option Nat
  | [] => if pat.isEmpty then some 0 else none
  | c :: cs =>
    if startsWithL pat (c :: cs) then some 0
    else (findSubL pat cs).map (fun n => n + 1)

/-- The operator list of `extract_version_spec`, searched in this order. -/
def specOperators : List (List Char) :=
  [['=', '='], ['>', '='], ['<', '='], ['~', '='], ['>'], ['<'], ['!', '=']]

/-- Position of the first operator (in list order) found in the line. -/
def firstOperatorPos : List (List Char) → List Char → Option Nat
  | [], _ => none
  | op :: rest, l =>
    match findSubL op l with
    | some p => some p
    | none => firstOperatorPos rest l

/-- `extract_version_spec` from src/parser.rs: split the line at the
first operator found; the name part is trimmed, the spec part is not. -/
def extract_version_spec (line : String) : String × String :=
  match firstOperatorPos specOperators line.data with
  | some pos => (⟨wsTrim (line.data.take pos)⟩, ⟨line.data.drop pos⟩)
  | none => (line, "")

/-- `extract_extras` from src/parser.rs. -/
def extract_extras (name_part : List Char) : List Char × List String :=
  match findSubL ['['] name_part with
  | some pos =>
    let inner := (name_part.drop (pos + 1)).reverse.dropWhile (fun c => c = ']') |>.reverse
    (name_part.take pos, (splitOn ',' inner).map (fun s => ⟨wsTrim s⟩))
  | none => (name_part, [])

/-- `normalize_version` branch for `^(\d+)\.(\d+)\.(\d+)(.*)$`: the three
leading digit runs plus the remainder, reassembled by `format!`. -/
def matchesThree (l : List Char) : Option (List Char × List Char × List Char × List Char) :=
  let d1 := l.takeWhile Char.isDigit
  match l.dropWhile Char.isDigit with
  | '.' :: r1 =>
    let d2 := r1.takeWhile Char.isDigit
    match r1.dropWhile Char.isDigit with
    | '.' :: r2 =>
      let d3 := r2.takeWhile Char.isDigit
      if d1.isEmpty || d2.isEmpty || d3.isEmpty then none
      else some (d1, d2, d3, r2.dropWhile Char.isDigit)
    | _ => none
  | _ => none

/-- `normalize_version` branch for the anchored `^(\d+)\.(\d+)$`. -/
def matchesTwo (l : List Char) : Option (List Char × List Char) :=
  let d1 := l.takeWhile Char.isDigit
  match l.dropWhile Char.isDigit with
  | '.' :: r1 =>
    let d2 := r1.takeWhile Char.isDigit
    if d1.isEmpty || d2.isEmpty || !(r1.dropWhile Char.isDigit).isEmpty then none
    else some (d1, d2)
  | _ => none

/-- `normalize_version` branch for the anchored `^(\d+)$`. -/
def matchesOne (l : List Char) : Option (List Char) :=
  let d1 := l.takeWhile Char.isDigit
  if d1.isEmpty || !(l.dropWhile Char.isDigit).isEmpty then none
  else some d1

/-- `normalize_version` from src/parser.rs. -/
def normalize_version (version : List Char) : List Char :=
  match matchesThree version with
  | some (d1, d2, d3, rest) => d1 ++ '.' :: (d2 ++ '.' :: (d3 ++ rest))
  | none =>
    match matchesTwo version with
    | some (d1, d2) => d1 ++ '.' :: (d2 ++ ['.', '0'])
    | none =>
      match matchesOne version with
      | some d1 => d1 ++ ['.', '0', '.', '0']
      | none => version

/-- `parse_version_spec` from src/parser.rs. -/
def parse_version_spec (spec : String) : VersionConstraint × String :=
  let s := wsTrim spec.data
  if s.isEmpty then (VersionConstraint.Unspecified, "0.0.0")
  else
    match s with
    | '=' :: '=' :: v =>
      let v' := wsTrim v
      (VersionConstraint.Pinned ⟨v'⟩, ⟨normalize_version v'⟩)
    | '>' :: '=' :: v =>
      let v' := wsTrim v
      (VersionConstraint.GreaterEqual ⟨v'⟩, ⟨normalize_version v'⟩)
    | '~' :: '=' :: v =>
      let v' := wsTrim v
      (VersionConstraint.Compatible ⟨v'⟩, ⟨normalize_version v'⟩)
    | '<' :: v =>
      let v' := wsTrim v
      (VersionConstraint.Less ⟨v'⟩, "0.0.0")
    | _ => (VersionConstraint.Unspecified, "0.0.0")

/-- `parse_pypi_requirement` from src/parser.rs. -/
def parse_pypi_requirement (line : String) : Package :=
  let nv := extract_version_spec line
  let ne := extract_extras nv.1.data
  let cv := parse_version_spec nv.2
  { name := ⟨ne.1.map Char.toLower⟩
    current_version := cv.2
    latest_version := none
    status := VersionStatus.Unknown
    selected := false
    extras := ne.2
    constraint := cv.1
    error := none
    source := DependencySource.PyPI
    security_status := SecurityStatus.Unknown
    changelog := none
    popularity := none
    dependencies := [] }

/-- `parse_requirement_line` from src/parser.rs restricted to
Index-source lines: for a line that does not start with `git+`, `-e`, or
a URL scheme, the function strips the comment (`line.split('#').next()`,
then `trim`) and delegates to `parse_pypi_requirement`. -/
def parse_requirement_line_index (line : String) : Package :=
  parse_pypi_requirement ⟨wsTrim (line.data.takeWhile (fun c => c ≠ '#'))⟩

/-! ## src/app.rs

The four bulk-selection methods share one loop shape: iterate the
filtered indices and set `selected = true` on each package passing the
method's guard. -/

/-- One iteration of the bulk-selection loop: `self.packages.get_mut(idx)`
and, when the guard passes, `pkg.selected = true`. -/
def selectStep (guard : Package → Bool) (pkgs : List Package) (idx : Nat) : List Package :=
  match pkgs[idx]? with
  | some pkg => if guard pkg then pkgs.set idx {pkg with selected := true} else pkgs
  | none => pkgs

/-- The common loop of `App::select_all` / `select_all_major` /
`select_all_minor` / `select_all_patch`. -/
def bulk_select (guard : Package → Bool) (filtered : List Nat)
    (packages : List Package) : List Package :=
  filtered.foldl (selectStep guard) packages

/-- `App::select_all`: guard is `latest_version.is_some()`. -/
def select_all (filtered : List Nat) (packages : List Package) : List Package :=
  bulk_select (fun p => p.latest_version.isSome) filtered packages

/-- `App::select_all_major`: guard is `status == Major` only. -/
def select_all_major (filtered : List Nat) (packages : List Package) : List Package :=
  bulk_select (fun p => p.status == VersionStatus.Major) filtered packages

/-- `App::select_all_minor`: guard is `status == Minor` only. -/
def select_all_minor (filtered : List Nat) (packages : List Package) : List Package :=
  bulk_select (fun p => p.status == VersionStatus.Minor) filtered packages

/-- `App::select_all_patch`: guard is `status == Patch` only. -/
def select_all_patch (filtered : List Nat) (packages : List Package) : List Package :=
  bulk_select (fun p => p.status == VersionStatus.Patch) filtered packages

/-- Does the record set hold a pending upgrade for the dependency name
`dep`: the first record by that name has a `latest_version` strictly
above (string order) its `current_version`?  This is the per-pair
condition of `detect_conflicts`. -/
def pendingUpgrade (packages : List Package) (dep : String) : Bool :=
  match packages.find? (fun p => p.name == dep) with
  | some dp =>
    match dp.latest_version with
    | some latest => strLt dp.current_version latest
    | none => false
  | none => false

/-! ## Concrete records used by counterexamples and witnesses -/

/-- A PyPI record depending on `beta`, not selected. -/
def pkgAlpha : Package :=
  { name := "alpha", current_version := "1.0.0", latest_version := none
    status := VersionStatus.Unknown, selected := false, extras := []
    constraint := VersionConstraint.Unspecified, error := none
    source := DependencySource.PyPI, security_status := SecurityStatus.Unknown
    changelog := none, popularity := none, dependencies := ["beta"] }

/-- A PyPI record with a pending major upgrade, not selected. -/
def pkgBeta : Package :=
  { name := "beta", current_version := "1.0.0", latest_version := some "2.0.0"
    status := VersionStatus.Major, selected := false, extras := []
    constraint := VersionConstraint.Unspecified, error := none
    source := DependencySource.PyPI, security_status := SecurityStatus.Unknown
    changelog := none, popularity := none, dependencies := [] }

/-- A PyPI record whose security status has not been determined. -/
def pkgSec : Package :=
  { name := "gamma", current_version := "1.0.0", latest_version := none
    status := VersionStatus.Unknown, selected := false, extras := []
    constraint := VersionConstraint.Unspecified, error := none
    source := DependencySource.PyPI, security_status := SecurityStatus.Unknown
    changelog := none, popularity := none, dependencies := [] }

/-- A Git-source record, as produced by `parse_git_requirement`. -/
def pkgGit : Package :=
  { name := "repo", current_version := "git-source", latest_version := none
    status := VersionStatus.Unknown, selected := false, extras := []
    constraint := VersionConstraint.Unspecified, error := none
    source := DependencySource.Git "https://example.com/repo.git" none
    security_status := SecurityStatus.Unknown
    changelog := none, popularity := none, dependencies := [] }

/-- A record with `status = Major` but no known latest version. -/
def pkgMajorNoLatest : Package :=
  { name := "delta", current_version := "1.0.0", latest_version := none
    status := VersionStatus.Major, selected := false, extras := []
    constraint := VersionConstraint.Unspecified, error := none
    source := DependencySource.PyPI, security_status := SecurityStatus.Unknown
    changelog := none, popularity := none, dependencies := [] }

/-- A changelog with deprecations and security fixes but no breaking
changes. -/
def clogDepSec : Changelog :=
  { version := "2.0.0", release_date := "2024-01-01", changes := []
    breaking_changes := [], deprecated := ["old api"]
    security_fixes := ["fixed CVE"] }

/-! ## Theorems -/

/-- C1: for version pairs that both parse as semantic versions,
`compare_versions` returns `UpToDate` iff `latest <= current`, else
`Major` iff the latest major exceeds the current major, else `Minor` iff
the latest minor exceeds the current minor, else `Patch`; when either
side fails to parse it returns `UpToDate` iff `latest <= current`
lexicographically and `Unknown` otherwise.  (`compare_versions` is a
plain function of the two strings, hence total and deterministic.) -/
theorem compare_versions_classification (c l : String) :
    (∀ cv lv, parseSemver c = some cv → parseSemver l = some lv →
      ((compare_versions c l = VersionStatus.UpToDate ↔ semverLe lv cv = true) ∧
       (compare_versions c l = VersionStatus.Major ↔
         semverLe lv cv = false ∧ cv.major < lv.major) ∧
       (compare_versions c l = VersionStatus.Minor ↔
         semverLe lv cv = false ∧ ¬cv.major < lv.major ∧ cv.minor < lv.minor) ∧
       (compare_versions c l = VersionStatus.Patch ↔
         semverLe lv cv = false ∧ ¬cv.major < lv.major ∧ ¬cv.minor < lv.minor))) ∧
    ((parseSemver c = none ∨ parseSemver l = none) →
      ((compare_versions c l = VersionStatus.UpToDate ↔ strLe l c = true) ∧
       (compare_versions c l = VersionStatus.Unknown ↔ strLe l c = false))) := by
  constructor
  · intro cv lv h1 h2
    simp only [compare_versions, h1, h2]
    rcases hle : semverLe lv cv with _ | _
    · by_cases hmaj : cv.major < lv.major
      · simp [hmaj]
      · by_cases hmin : cv.minor < lv.minor
        · simp [hmaj, hmin]
        · simp [hmaj, hmin]
    · simp
  · intro h
    have hfb : compare_versions c l =
        if strLe l c then VersionStatus.UpToDate else VersionStatus.Unknown := by
      rcases h with h | h
      · simp only [compare_versions, h]
      · cases hc : parseSemver c <;> simp only [compare_versions, hc, h]
    rw [hfb]
    rcases hsl : strLe l c with _ | _ <;> simp [hsl]

/-- Witness for C1 at concrete inputs: a pure patch bump with both sides
parsed, and the lexicographic fallback when neither side parses. -/
theorem compare_versions_classification_witness :
    compare_versions "1.2.3" "1.2.10" = VersionStatus.Patch ∧
    compare_versions "abc" "abd" = VersionStatus.Unknown := by
  constructor
  · exact (((compare_versions_classification "1.2.3" "1.2.10").1
      ⟨1, 2, 3, [], []⟩ ⟨1, 2, 10, [], []⟩ (by decide) (by decide)).2.2.2).mpr (by decide)
  · exact (((compare_versions_classification "abc" "abd").2
      (Or.inl (by decide))).2).mpr (by decide)

/-- C2: the simulation's counts are the selected-record count, the count
of selected `Major` records, the count of selected `Vulnerable` records,
and the conflict count over the entire record set; its risk level is
Critical when there are conflicts and selected major changes, else High
when the major changes exceed half the selection (integer division),
else Medium when there is any major change or conflict, else Low. -/
theorem simulate_upgrade_fields_and_risk (packages : List Package) :
    (simulate_upgrade packages).packages_to_upgrade
        = (packages.filter (fun p => p.selected)).length ∧
    (simulate_upgrade packages).major_changes
        = ((packages.filter (fun p => p.selected)).filter
            (fun p => p.status == VersionStatus.Major)).length ∧
    (simulate_upgrade packages).security_fixes
        = ((packages.filter (fun p => p.selected)).filter
            (fun p => p.status == VersionStatus.Vulnerable)).length ∧
    (simulate_upgrade packages).conflicts_detected = (detect_conflicts packages).length ∧
    (simulate_upgrade packages).risk_level =
      (if (detect_conflicts packages).length > 0 ∧
          ((packages.filter (fun p => p.selected)).filter
            (fun p => p.status == VersionStatus.Major)).length > 0
       then RiskLevel.Critical
       else if ((packages.filter (fun p => p.selected)).filter
                 (fun p => p.status == VersionStatus.Major)).length
                > (packages.filter (fun p => p.selected)).length / 2
       then RiskLevel.High
       else if ((packages.filter (fun p => p.selected)).filter
                 (fun p => p.status == VersionStatus.Major)).length > 0 ∨
               (detect_conflicts packages).length > 0
       then RiskLevel.Medium
       else RiskLevel.Low) := by
  refine ⟨rfl, rfl, rfl, rfl, ?_⟩
  simp only [simulate_upgrade, calculate_risk_level]
  split_ifs <;> rfl

/-- C3 is false on the code: with zero records selected but a conflict
present in the record set, the risk level is Medium, not Low. -/
theorem simulate_zero_selected_conflict_not_low :
    (∀ p ∈ [pkgAlpha, pkgBeta], p.selected = false) ∧
    (detect_conflicts [pkgAlpha, pkgBeta]).length = 1 ∧
    (simulate_upgrade [pkgAlpha, pkgBeta]).risk_level = RiskLevel.Medium ∧
    RiskLevel.Medium ≠ RiskLevel.Low := by
  refine ⟨?_, ?_, ?_, ?_⟩ <;> decide

/-- C3 (amended): when no record is selected, the risk level is Medium
if the record set has any detected conflict, else Low. -/
theorem simulate_upgrade_zero_selected (packages : List Package)
    (h : ∀ p ∈ packages, p.selected = false) :
    (simulate_upgrade packages).risk_level =
      if (detect_conflicts packages).length > 0 then RiskLevel.Medium
      else RiskLevel.Low := by
  have hsel : packages.filter (fun p => p.selected) = [] := by
    rw [List.filter_eq_nil_iff]
    intro p hp
    simp [h p hp]
  by_cases hc : (detect_conflicts packages).length > 0
  · simp [simulate_upgrade, hsel, calculate_risk_level, hc]
  · simp [simulate_upgrade, hsel, calculate_risk_level, hc]

/-- Witness for C3 (amended) at a concrete record set with a conflict. -/
theorem simulate_upgrade_zero_selected_witness :
    (simulate_upgrade [pkgAlpha, pkgBeta]).risk_level = RiskLevel.Medium := by
  have h := simulate_upgrade_zero_selected [pkgAlpha, pkgBeta] (by decide)
  rw [h]
  decide

/-- C4 is false on the code: on a transport failure, `fetch_advisories`
returns `Ok` with an empty list, so `check_package` marks the package
`Safe`, not `Unknown`. -/
theorem check_package_request_error_sets_safe_cex :
    pkgSec.security_status = SecurityStatus.Unknown ∧
    (check_package [] FetchOutcome.requestError pkgSec).1.security_status
      = SecurityStatus.Safe ∧
    (check_package [] FetchOutcome.parseError pkgSec).1.security_status
      = SecurityStatus.Safe ∧
    SecurityStatus.Safe ≠ SecurityStatus.Unknown := by
  refine ⟨?_, ?_, ?_, ?_⟩ <;> decide

/-- C4 (amended): for an Index-source package not in the advisory cache,
a transport or parse failure degrades the advisory list to empty, so
`check_package` sets `security_status = Safe` (never failing the record,
and touching no other field) and caches the empty list. -/
theorem check_package_failure_degrades_to_safe
    (cache : List (String × List SecurityAdvisory)) (outcome : FetchOutcome) (pkg : Package)
    (hsrc : pkg.source = DependencySource.PyPI)
    (hmiss : cacheGet cache pkg.name = none)
    (hfail : outcome = FetchOutcome.requestError ∨ outcome = FetchOutcome.parseError) :
    (check_package cache outcome pkg).1 = {pkg with security_status := SecurityStatus.Safe} ∧
    (check_package cache outcome pkg).2 = (pkg.name, []) :: cache := by
  have hadv : fetch_advisories outcome = [] := by
    rcases hfail with h | h <;> simp [h, fetch_advisories]
  constructor <;> simp [check_package, hsrc, hmiss, hadv]

/-- Witness for C4 (amended) at a concrete package and failure. -/
theorem check_package_failure_degrades_to_safe_witness :
    (check_package [] FetchOutcome.requestError pkgSec).1
      = {pkgSec with security_status := SecurityStatus.Safe} ∧
    (check_package [] FetchOutcome.requestError pkgSec).2 = [("gamma", [])] := by
  have h := check_package_failure_degrades_to_safe [] FetchOutcome.requestError pkgSec
    (by decide) (by decide) (Or.inl rfl)
  exact ⟨h.1, h.2.trans (by decide)⟩

/-- C6 is false on the code: a changelog with deprecations and security
fixes but no breaking changes is rated `"LOW"` (the security branch
precedes the deprecation branch), not `"MEDIUM"`. -/
theorem risk_level_security_overrides_deprecated_cex :
    clogDepSec.breaking_changes = [] ∧
    clogDepSec.deprecated ≠ [] ∧
    clogDepSec.security_fixes ≠ [] ∧
    Changelog.risk_level clogDepSec = "LOW" ∧
    ("LOW" : String) ≠ "MEDIUM" := by
  refine ⟨?_, ?_, ?_, ?_, ?_⟩ <;> decide

/-- C6 (amended): `risk_level()` is `"HIGH"` iff there is a breaking
change; else `"LOW"` if there is any security fix; else `"MEDIUM"` iff
there is a deprecation; else `"LOW"`. -/
theorem risk_level_characterization (c : Changelog) :
    (Changelog.risk_level c = "HIGH" ↔ c.breaking_changes ≠ []) ∧
    (Changelog.risk_level c = "MEDIUM" ↔
      c.breaking_changes = [] ∧ c.security_fixes = [] ∧ c.deprecated ≠ []) ∧
    (Changelog.risk_level c = "LOW" ↔
      c.breaking_changes = [] ∧ (c.security_fixes ≠ [] ∨ c.deprecated = [])) := by
  rcases hb : c.breaking_changes with _ | ⟨x, xs⟩ <;>
  rcases hs : c.security_fixes with _ | ⟨y, ys⟩ <;>
  rcases hd : c.deprecated with _ | ⟨z, zs⟩ <;>
    simp [Changelog.risk_level, Changelog.has_breaking_changes, hb, hs, hd]

/-- C9: the code bug.  `clear_cache` acquires the write guard and drops
the guard without clearing the map, so the cache keeps its entries and a
subsequent `fetch_latest_version` still takes the cache-hit path,
returning the stale value instead of re-issuing a lookup. -/
theorem clear_cache_is_noop :
    clear_cache [("requests", "2.31.0")] = [("requests", "2.31.0")] ∧
    clear_cache [("requests", "2.31.0")] ≠ [] ∧
    fetch_latest_version (clear_cache [("requests", "2.31.0")])
        (fun _ => LookupResult.ok "9.9.9") "requests"
      = (LookupResult.ok "2.31.0", true) := by
  refine ⟨rfl, ?_, ?_⟩ <;> decide

/-- The inner loop of `detect_conflicts` collects exactly the per-pair
conflicts of one package's dependency list. -/
theorem depConflicts_eq_filterMap (packages : List Package) (pkg : Package)
    (deps : List String) :
    depConflicts packages pkg deps = deps.filterMap (conflictFor packages pkg) := by
  induction deps with
  | nil => rfl
  | cons d rest ih =>
    simp only [depConflicts, List.filterMap_cons]
    cases h : conflictFor packages pkg d <;> simp [h, ih]

/-- The outer loop of `detect_conflicts` is the concatenation of the
inner loops over the record set. -/
theorem conflictsLoop_eq_bind (packages rest : List Package) :
    conflictsLoop packages rest
      = rest.flatMap (fun pkg => pkg.dependencies.filterMap (conflictFor packages pkg)) := by
  induction rest with
  | nil => rfl
  | cons pkg rest ih =>
    simp [conflictsLoop, ih, depConflicts_eq_filterMap, List.flatMap_cons]

/-- `filterMap` distributes over `flatMap`. -/
theorem filterMap_flatMap {α β γ : Type} (l : List α) (g : α → List β) (f : β → Option γ) :
    (l.flatMap g).filterMap f = l.flatMap (fun a => (g a).filterMap f) := by
  induction l with
  | nil => rfl
  | cons a as ih => simp [List.flatMap_cons, List.filterMap_append, ih]

/-- A `(pkg, dep)` pair yields a conflict exactly when the dependency has
a pending upgrade. -/
theorem conflictFor_eq_none_iff (packages : List Package) (pkg : Package) (dep : String) :
    conflictFor packages pkg dep = none ↔ pendingUpgrade packages dep = false := by
  unfold conflictFor pendingUpgrade
  cases hf : packages.find? (fun p => p.name == dep) with
  | none => simp
  | some dp =>
    cases hl : dp.latest_version with
    | none => simp [hl]
    | some latest =>
      by_cases hlt : strLt dp.current_version latest = true
      · simp [hl, hlt]
      · rw [Bool.not_eq_true] at hlt
        simp [hl, hlt]

/-- C7: `detect_conflicts` returns exactly one `Conflict` per
`(package, dependency)` occurrence whose dependency name resolves to a
record with a `latest_version` strictly above its `current_version`,
carrying the dependent's name and the dependency's current and latest
versions; and it returns the empty list when no listed dependency has a
pending upgrade. -/
theorem detect_conflicts_spec (packages : List Package) :
    (detect_conflicts packages
       = (packages.flatMap (fun pkg => pkg.dependencies.map (fun dep => (pkg, dep)))).filterMap
           (fun pd =>
             match packages.find? (fun p => p.name == pd.2) with
             | some dp =>
               match dp.latest_version with
               | some latest =>
                 if strLt dp.current_version latest then
                   some ⟨pd.1.name,
                         "Requires " ++ pd.2 ++ " but upgrade to " ++ latest ++
                           " may break compatibility",
                         dp.current_version, latest⟩
                 else none
               | none => none
             | none => none)) ∧
    ((∀ pkg ∈ packages, ∀ dep ∈ pkg.dependencies, pendingUpgrade packages dep = false) →
      detect_conflicts packages = []) := by
  constructor
  · rw [detect_conflicts, conflictsLoop_eq_bind, filterMap_flatMap]
    refine congrArg (List.flatMap packages) (funext fun pkg => ?_)
    rw [List.filterMap_map]
    congr 1
    funext dep
    simp only [Function.comp_apply]
    cases hf : packages.find? (fun p => p.name == dep) with
    | none => simp [conflictFor, hf]
    | some dp =>
      cases hl : dp.latest_version with
      | none => simp [conflictFor, hf, hl]
      | some latest => simp [conflictFor, hf, hl]
  · intro h
    rw [detect_conflicts, conflictsLoop_eq_bind]
    rw [List.flatMap_eq_nil_iff]
    intro pkg hpkg
    rw [List.filterMap_eq_nil_iff]
    intro dep hdep
    exact (conflictFor_eq_none_iff packages pkg dep).mpr (h pkg hpkg dep hdep)

/-- Witness for C7 at concrete record sets: a set with one pending
dependency upgrade produces exactly the expected conflict, and a set
with no pending upgrade produces none. -/
theorem detect_conflicts_spec_witness :
    detect_conflicts [pkgAlpha, pkgBeta]
      = [⟨"alpha", "Requires beta but upgrade to 2.0.0 may break compatibility",
          "1.0.0", "2.0.0"⟩] ∧
    detect_conflicts [pkgAlpha] = [] := by
  constructor
  · exact ((detect_conflicts_spec [pkgAlpha, pkgBeta]).1).trans (by decide)
  · exact (detect_conflicts_spec [pkgAlpha]).2 (by decide)

/-- Applying a lookup outcome never changes a record's name. -/
theorem applyOutcome_name (p : Package) (res : LookupResult) :
    (applyOutcome p res).name = p.name := by
  cases res <;> rfl

/-- `applyResult` leaves a list whose head bears a different name alone
at the head. -/
theorem applyResult_cons_ne (name : String) (res : LookupResult) (q : Package)
    (l : List Package) (h : (q.name == name) = false) :
    applyResult name res (q :: l) = q :: applyResult name res l := by
  simp [applyResult, h]

/-- Folding task outcomes whose names all differ from the head record's
name leaves the head in place. -/
theorem foldl_applyResult_cons (q : Package) (l : List Package)
    (nrs : List (String × LookupResult))
    (h : ∀ nr ∈ nrs, (q.name == nr.1) = false) :
    nrs.foldl (fun acc nr => applyResult nr.1 nr.2 acc) (q :: l)
      = q :: nrs.foldl (fun acc nr => applyResult nr.1 nr.2 acc) l := by
  induction nrs generalizing l with
  | nil => rfl
  | cons nr rest ih =>
    simp only [List.foldl_cons]
    rw [applyResult_cons_ne nr.1 nr.2 q l (h nr (List.mem_cons_self nr rest))]
    exact ih _ (fun x hx => h x (List.mem_cons_of_mem nr hx))

/-- C5 (amended): `update_packages` issues one lookup per record with no
source filter; over a record set with pairwise-distinct names, every
record — Index or not — receives its own outcome: on success its
`latest_version`, `status`, and `error` fields are written, on failure
its `error` and `status` fields are written. -/
theorem update_packages_updates_every_record (oracle : String → LookupResult)
    (cache : List (String × String)) (packages : List Package)
    (hnd : (packages.map (fun p => p.name)).Nodup) :
    update_packages oracle cache packages
      = packages.map (fun p => applyOutcome p (taskResult cache oracle p.name)) := by
  induction packages with
  | nil => rfl
  | cons p rest ih =>
    simp only [List.map_cons, List.nodup_cons, List.mem_map] at hnd
    obtain ⟨hnotin, hrest⟩ := hnd
    show ((p :: rest).map (fun q => (q.name, taskResult cache oracle q.name))).foldl
        (fun acc nr => applyResult nr.1 nr.2 acc) (p :: rest)
      = applyOutcome p (taskResult cache oracle p.name)
          :: rest.map (fun q => applyOutcome q (taskResult cache oracle q.name))
    simp only [List.map_cons, List.foldl_cons]
    rw [show applyResult p.name (taskResult cache oracle p.name) (p :: rest)
          = applyOutcome p (taskResult cache oracle p.name) :: rest from by
        simp [applyResult]]
    rw [foldl_applyResult_cons]
    · exact congrArg _ (ih hrest)
    · intro nr hnr
      rw [applyOutcome_name]
      rcases List.mem_map.mp hnr with ⟨q, hq, rfl⟩
      exact beq_eq_false_iff_ne.mpr (fun e => hnotin ⟨q, hq, e.symm⟩)

/-- C5 is false on the code: a Git-source record also gets a lookup and
its `latest_version` is written. -/
theorem update_packages_touches_git_record_cex :
    (pkgGit.source = DependencySource.Git "https://example.com/repo.git" none) ∧
    pkgGit.latest_version = none ∧
    (update_packages (fun _ => LookupResult.ok "9.9.9") [] [pkgGit]).map
        (fun p => p.latest_version)
      = [some "9.9.9"] := by
  refine ⟨rfl, rfl, ?_⟩
  decide

/-- Witness for C5 (amended) at a concrete mixed-source record set. -/
theorem update_packages_updates_every_record_witness :
    update_packages (fun _ => LookupResult.err "offline") [] [pkgAlpha, pkgGit]
      = [applyOutcome pkgAlpha (LookupResult.err "offline"),
         applyOutcome pkgGit (LookupResult.err "offline")] := by
  have h := update_packages_updates_every_record
    (fun _ => LookupResult.err "offline") [] [pkgAlpha, pkgGit] (by decide)
  exact h.trans (by decide)

/-- Entry-wise effect of the bulk-selection loop, for guards that do not
read the `selected` flag: the record at `i` is selected exactly when `i`
is among the filtered indices and the guard passes on it. -/
theorem bulk_select_getElem (guard : Package → Bool)
    (hguard : ∀ p, guard {p with selected := true} = guard p)
    (filtered : List Nat) (packages : List Package) (i : Nat) :
    (bulk_select guard filtered packages)[i]?
      = (packages[i]?).map
          (fun p => if i ∈ filtered ∧ guard p = true then {p with selected := true} else p) := by
  induction filtered generalizing packages with
  | nil =>
    simp only [bulk_select, List.foldl_nil, List.not_mem_nil, false_and, if_false]
    cases packages[i]? <;> rfl
  | cons j rest ih =>
    have step : bulk_select guard (j :: rest) packages
        = bulk_select guard rest (selectStep guard packages j) := rfl
    rw [step, ih]
    rcases hj : packages[j]? with _ | q
    · have hstep : selectStep guard packages j = packages := by
        simp [selectStep, hj]
      rw [hstep]
      rcases hi : packages[i]? with _ | p
      · rfl
      · have hij : i ≠ j := fun e => by rw [e, hj] at hi; exact Option.noConfusion hi
        simp [List.mem_cons, hij]
    · by_cases hg : guard q = true
      · have hjlen : j < packages.length := (List.getElem?_eq_some.mp hj).1
        have hstep : selectStep guard packages j
            = packages.set j {q with selected := true} := by
          simp [selectStep, hj, hg]
        rw [hstep]
        by_cases hij : i = j
        · subst hij
          rw [List.getElem?_set_eq_of_lt _ hjlen, hj]
          simp [hguard, hg]
        · rw [List.getElem?_set_ne (fun e => hij e.symm)]
          rcases hi : packages[i]? with _ | p
          · rfl
          · simp [List.mem_cons, hij]
      · have hstep : selectStep guard packages j = packages := by
          simp [selectStep, hj, hg]
        rw [hstep]
        by_cases hij : i = j
        · subst hij
          rw [hj]
          simp [hg]
        · rcases hi : packages[i]? with _ | p
          · rfl
          · simp [List.mem_cons, hij]

/-- C10 (amended): `select_all` sets `selected = true` only on packages
whose `latest_version` is present, but the status-filtered bulk
operations guard on status alone — a record whose status is
Major/Minor/Patch is newly selected by the matching operation even when
its `latest_version` is `None`. -/
theorem bulk_selection_characterization (filtered : List Nat)
    (packages : List Package) (i : Nat) :
    ((select_all filtered packages)[i]?
       = (packages[i]?).map
           (fun p => if i ∈ filtered ∧ p.latest_version.isSome = true
                     then {p with selected := true} else p)) ∧
    ((select_all_major filtered packages)[i]?
       = (packages[i]?).map
           (fun p => if i ∈ filtered ∧ (p.status == VersionStatus.Major) = true
                     then {p with selected := true} else p)) ∧
    ((select_all_minor filtered packages)[i]?
       = (packages[i]?).map
           (fun p => if i ∈ filtered ∧ (p.status == VersionStatus.Minor) = true
                     then {p with selected := true} else p)) ∧
    ((select_all_patch filtered packages)[i]?
       = (packages[i]?).map
           (fun p => if i ∈ filtered ∧ (p.status == VersionStatus.Patch) = true
                     then {p with selected := true} else p)) :=
  ⟨bulk_select_getElem (fun p => p.latest_version.isSome) (fun _ => rfl) filtered packages i,
   bulk_select_getElem (fun p => p.status == VersionStatus.Major) (fun _ => rfl)
     filtered packages i,
   bulk_select_getElem (fun p => p.status == VersionStatus.Minor) (fun _ => rfl)
     filtered packages i,
   bulk_select_getElem (fun p => p.status == VersionStatus.Patch) (fun _ => rfl)
     filtered packages i⟩

/-- C10 is false on the code: `select_all_major` newly selects a record
with `status = Major` whose `latest_version` is `None`. -/
theorem select_all_major_ignores_latest_cex :
    pkgMajorNoLatest.latest_version = none ∧
    pkgMajorNoLatest.selected = false ∧
    pkgMajorNoLatest.status = VersionStatus.Major ∧
    (select_all_major [0] [pkgMajorNoLatest]).map (fun p => p.selected) = [true] := by
  refine ⟨rfl, rfl, rfl, ?_⟩
  decide

/-- `takeWhile` over a block satisfying the predicate followed by a
failing element keeps exactly the block. -/
theorem takeWhile_block {α : Type} (p : α → Bool) (xs : List α)
    (h : ∀ x ∈ xs, p x = true) (c : α) (hc : p c = false) (ys : List α) :
    (xs ++ c :: ys).takeWhile p = xs := by
  have hx : xs.takeWhile p = xs := List.takeWhile_eq_self_iff.mpr h
  rw [List.takeWhile_append, hx]
  simp [List.takeWhile_cons, hc]

/-- `dropWhile` over a satisfying block followed by a failing element
drops exactly the block. -/
theorem dropWhile_block {α : Type} (p : α → Bool) (xs : List α)
    (h : ∀ x ∈ xs, p x = true) (c : α) (hc : p c = false) (ys : List α) :
    (xs ++ c :: ys).dropWhile p = c :: ys := by
  have hx : xs.dropWhile p = [] := List.dropWhile_eq_nil_iff.mpr h
  rw [List.dropWhile_append, hx]
  simp [List.dropWhile_cons, hc]

/-- When `dropWhile` keeps part of the first block, appending is
transparent. -/
theorem dropWhile_append_left {α : Type} (p : α → Bool) (xs ys : List α)
    (h : xs.dropWhile p ≠ []) :
    (xs ++ ys).dropWhile p = xs.dropWhile p ++ ys := by
  rw [List.dropWhile_append, if_neg]
  simp [List.isEmpty_iff, h]

/-- Unpacking `trimRight v = v`. -/
theorem dropWhile_reverse_of_trimRight (v : List Char) (h : trimRight v = v) :
    v.reverse.dropWhile Char.isWhitespace = v.reverse := by
  have e := congrArg List.reverse h
  rwa [trimRight, List.reverse_reverse] at e

/-- A nonempty right-trimmed list stays fixed under `wsTrim` after
prepending two non-whitespace characters. -/
theorem wsTrim_cons₂ (a b : Char) (v : List Char)
    (ha : a.isWhitespace = false)
    (h2 : trimRight v = v) (hne : v ≠ []) :
    wsTrim (a :: b :: v) = a :: b :: v := by
  have hL : trimLeft (a :: b :: v) = a :: b :: v := by
    simp [trimLeft, List.dropWhile_cons, ha]
  rw [wsTrim, hL, trimRight]
  have hrev : (a :: b :: v).reverse = v.reverse ++ [b, a] := by
    simp
  rw [hrev, dropWhile_append_left _ _ _ ?hnn]
  case hnn =>
    rw [dropWhile_reverse_of_trimRight v h2]
    simpa using hne
  rw [dropWhile_reverse_of_trimRight v h2]
  simp

/-- A nonempty right-trimmed list stays fixed under `wsTrim` after
prepending one non-whitespace character. -/
theorem wsTrim_cons₁ (a : Char) (v : List Char)
    (ha : a.isWhitespace = false)
    (h2 : trimRight v = v) (hne : v ≠ []) :
    wsTrim (a :: v) = a :: v := by
  have hL : trimLeft (a :: v) = a :: v := by
    simp [trimLeft, List.dropWhile_cons, ha]
  rw [wsTrim, hL, trimRight]
  have hrev : (a :: v).reverse = v.reverse ++ [a] := by
    simp
  rw [hrev, dropWhile_append_left _ _ _ ?hnn]
  case hnn =>
    rw [dropWhile_reverse_of_trimRight v h2]
    simpa using hne
  rw [dropWhile_reverse_of_trimRight v h2]
  simp

/-- `parse_version_spec` on a `==` spec with a trimmed nonempty version
text. -/
theorem parse_version_spec_pinned (v : List Char)
    (h1 : trimLeft v = v) (h2 : trimRight v = v) (hne : v ≠ []) :
    parse_version_spec ⟨'=' :: '=' :: v⟩
      = (VersionConstraint.Pinned ⟨v⟩, ⟨normalize_version v⟩) := by
  have hs : wsTrim ('=' :: '=' :: v) = '=' :: '=' :: v :=
    wsTrim_cons₂ '=' '=' v rfl h2 hne
  have hv : wsTrim v = v := by rw [wsTrim, h1, h2]
  simp only [parse_version_spec, hs, List.isEmpty_cons, hv, Bool.false_eq_true, if_false]

/-- `parse_version_spec` on a `>=` spec with a trimmed nonempty version
text. -/
theorem parse_version_spec_ge (v : List Char)
    (h1 : trimLeft v = v) (h2 : trimRight v = v) (hne : v ≠ []) :
    parse_version_spec ⟨'>' :: '=' :: v⟩
      = (VersionConstraint.GreaterEqual ⟨v⟩, ⟨normalize_version v⟩) := by
  have hs : wsTrim ('>' :: '=' :: v) = '>' :: '=' :: v :=
    wsTrim_cons₂ '>' '=' v rfl h2 hne
  have hv : wsTrim v = v := by rw [wsTrim, h1, h2]
  simp only [parse_version_spec, hs, List.isEmpty_cons, hv, Bool.false_eq_true, if_false]

/-- `parse_version_spec` on a `~=` spec with a trimmed nonempty version
text. -/
theorem parse_version_spec_compatible (v : List Char)
    (h1 : trimLeft v = v) (h2 : trimRight v = v) (hne : v ≠ []) :
    parse_version_spec ⟨'~' :: '=' :: v⟩
      = (VersionConstraint.Compatible ⟨v⟩, ⟨normalize_version v⟩) := by
  have hs : wsTrim ('~' :: '=' :: v) = '~' :: '=' :: v :=
    wsTrim_cons₂ '~' '=' v rfl h2 hne
  have hv : wsTrim v = v := by rw [wsTrim, h1, h2]
  simp only [parse_version_spec, hs, List.isEmpty_cons, hv, Bool.false_eq_true, if_false]

/-- `parse_version_spec` on a `<` spec: the constraint keeps the text but
the current version defaults to `"0.0.0"`. -/
theorem parse_version_spec_less (v : List Char)
    (h1 : trimLeft v = v) (h2 : trimRight v = v) (hne : v ≠ []) :
    parse_version_spec ⟨'<' :: v⟩ = (VersionConstraint.Less ⟨v⟩, "0.0.0") := by
  have hs : wsTrim ('<' :: v) = '<' :: v := wsTrim_cons₁ '<' v rfl h2 hne
  have hv : wsTrim v = v := by rw [wsTrim, h1, h2]
  simp only [parse_version_spec, hs, List.isEmpty_cons, hv, Bool.false_eq_true, if_false]

/-- A nonempty list is not `isEmpty`. -/
theorem isEmpty_false_of_ne_nil {α : Type} {l : List α} (h : l ≠ []) :
    l.isEmpty = false := by
  cases l with
  | nil => exact absurd rfl h
  | cons a as => rfl

/-- `normalize_version` pads a bare numeric component to three. -/
theorem normalize_version_one (d : List Char)
    (hd : ∀ x ∈ d, x.isDigit = true) (hne : d ≠ []) :
    normalize_version d = d ++ ['.', '0', '.', '0'] := by
  have ht : d.takeWhile Char.isDigit = d := List.takeWhile_eq_self_iff.mpr hd
  have hr : d.dropWhile Char.isDigit = [] := List.dropWhile_eq_nil_iff.mpr hd
  have he : d.isEmpty = false := isEmpty_false_of_ne_nil hne
  have hm3 : matchesThree d = none := by
    unfold matchesThree
    rw [hr]
  have hm2 : matchesTwo d = none := by
    unfold matchesTwo
    rw [hr]
  have hm1 : matchesOne d = some d := by
    unfold matchesOne
    rw [ht, hr]
    simp [he]
  simp only [normalize_version, hm3, hm2, hm1]

/-- `normalize_version` pads a two-component numeric version to three. -/
theorem normalize_version_two (d1 d2 : List Char)
    (h1 : ∀ x ∈ d1, x.isDigit = true) (h2 : ∀ x ∈ d2, x.isDigit = true)
    (hne1 : d1 ≠ []) (hne2 : d2 ≠ []) :
    normalize_version (d1 ++ '.' :: d2) = d1 ++ '.' :: (d2 ++ ['.', '0']) := by
  have htake : (d1 ++ '.' :: d2).takeWhile Char.isDigit = d1 :=
    takeWhile_block _ d1 h1 '.' (by decide) d2
  have hdrop : (d1 ++ '.' :: d2).dropWhile Char.isDigit = '.' :: d2 :=
    dropWhile_block _ d1 h1 '.' (by decide) d2
  have ht2 : d2.takeWhile Char.isDigit = d2 := List.takeWhile_eq_self_iff.mpr h2
  have hr2 : d2.dropWhile Char.isDigit = [] := List.dropWhile_eq_nil_iff.mpr h2
  have he1 : d1.isEmpty = false := isEmpty_false_of_ne_nil hne1
  have he2 : d2.isEmpty = false := isEmpty_false_of_ne_nil hne2
  have hm3 : matchesThree (d1 ++ '.' :: d2) = none := by
    unfold matchesThree
    rw [hdrop]
    simp only [hr2]
  have hm2 : matchesTwo (d1 ++ '.' :: d2) = some (d1, d2) := by
    unfold matchesTwo
    rw [hdrop]
    simp only [htake, ht2, hr2]
    simp [he1, he2]
  simp only [normalize_version, hm3, hm2]

/-- `normalize_version` leaves a three-component version (with any
qualifier not starting in a digit) unchanged. -/
theorem normalize_version_three (d1 d2 d3 q : List Char)
    (h1 : ∀ x ∈ d1, x.isDigit = true) (h2 : ∀ x ∈ d2, x.isDigit = true)
    (h3 : ∀ x ∈ d3, x.isDigit = true)
    (hne1 : d1 ≠ []) (hne2 : d2 ≠ []) (hne3 : d3 ≠ [])
    (hq : q = [] ∨ ∃ c q', q = c :: q' ∧ c.isDigit = false) :
    normalize_version (d1 ++ '.' :: (d2 ++ '.' :: (d3 ++ q)))
      = d1 ++ '.' :: (d2 ++ '.' :: (d3 ++ q)) := by
  have htq : (d3 ++ q).takeWhile Char.isDigit = d3 ∧ (d3 ++ q).dropWhile Char.isDigit = q := by
    rcases hq with rfl | ⟨c, q', rfl, hc⟩
    · constructor
      · rw [List.append_nil]
        exact List.takeWhile_eq_self_iff.mpr h3
      · rw [List.append_nil]
        exact List.dropWhile_eq_nil_iff.mpr h3
    · exact ⟨takeWhile_block _ d3 h3 c hc q', dropWhile_block _ d3 h3 c hc q'⟩
  have hdrop1 : (d1 ++ '.' :: (d2 ++ '.' :: (d3 ++ q))).dropWhile Char.isDigit
      = '.' :: (d2 ++ '.' :: (d3 ++ q)) :=
    dropWhile_block _ d1 h1 '.' (by decide) _
  have htake1 : (d1 ++ '.' :: (d2 ++ '.' :: (d3 ++ q))).takeWhile Char.isDigit = d1 :=
    takeWhile_block _ d1 h1 '.' (by decide) _
  have hdrop2 : (d2 ++ '.' :: (d3 ++ q)).dropWhile Char.isDigit = '.' :: (d3 ++ q) :=
    dropWhile_block _ d2 h2 '.' (by decide) _
  have htake2 : (d2 ++ '.' :: (d3 ++ q)).takeWhile Char.isDigit = d2 :=
    takeWhile_block _ d2 h2 '.' (by decide) _
  have he1 : d1.isEmpty = false := isEmpty_false_of_ne_nil hne1
  have he2 : d2.isEmpty = false := isEmpty_false_of_ne_nil hne2
  have he3 : d3.isEmpty = false := isEmpty_false_of_ne_nil hne3
  have hm3 : matchesThree (d1 ++ '.' :: (d2 ++ '.' :: (d3 ++ q)))
      = some (d1, d2, d3, q) := by
    unfold matchesThree
    rw [hdrop1]
    simp only [htake1, htake2, hdrop2, htq.1, htq.2]
    simp [he1, he2, he3]
  simp only [normalize_version, hm3]

/-- C8: constraint parsing maps each operator to its
`VersionConstraint` variant — `==` to `Pinned`, `>=` to `GreaterEqual`,
`~=` to `Compatible`, `<` to `Less`, an empty spec to `Unspecified` —
with `current_version` the normalized version text for `==`/`>=`/`~=`
and `"0.0.0"` for `<` and unconstrained specs; normalization pads
one- and two-component numeric versions with zeros to three components
and passes three-component versions with qualifiers through unchanged;
and the manifest line `"django==3.2  # Web framework"` parses to
`current_version = "3.2.0"`. -/
theorem parse_version_spec_normalization :
    (∀ v : List Char, trimLeft v = v → trimRight v = v → v ≠ [] →
       parse_version_spec ⟨'=' :: '=' :: v⟩
         = (VersionConstraint.Pinned ⟨v⟩, ⟨normalize_version v⟩)) ∧
    (∀ v : List Char, trimLeft v = v → trimRight v = v → v ≠ [] →
       parse_version_spec ⟨'>' :: '=' :: v⟩
         = (VersionConstraint.GreaterEqual ⟨v⟩, ⟨normalize_version v⟩)) ∧
    (∀ v : List Char, trimLeft v = v → trimRight v = v → v ≠ [] →
       parse_version_spec ⟨'~' :: '=' :: v⟩
         = (VersionConstraint.Compatible ⟨v⟩, ⟨normalize_version v⟩)) ∧
    (∀ v : List Char, trimLeft v = v → trimRight v = v → v ≠ [] →
       parse_version_spec ⟨'<' :: v⟩ = (VersionConstraint.Less ⟨v⟩, "0.0.0")) ∧
    (parse_version_spec "" = (VersionConstraint.Unspecified, "0.0.0")) ∧
    (∀ d : List Char, (∀ x ∈ d, x.isDigit = true) → d ≠ [] →
       normalize_version d = d ++ ['.', '0', '.', '0']) ∧
    (∀ d1 d2 : List Char, (∀ x ∈ d1, x.isDigit = true) → (∀ x ∈ d2, x.isDigit = true) →
       d1 ≠ [] → d2 ≠ [] →
       normalize_version (d1 ++ '.' :: d2) = d1 ++ '.' :: (d2 ++ ['.', '0'])) ∧
    (∀ d1 d2 d3 q : List Char,
       (∀ x ∈ d1, x.isDigit = true) → (∀ x ∈ d2, x.isDigit = true) →
       (∀ x ∈ d3, x.isDigit = true) → d1 ≠ [] → d2 ≠ [] → d3 ≠ [] →
       (q = [] ∨ ∃ c q', q = c :: q' ∧ c.isDigit = false) →
       normalize_version (d1 ++ '.' :: (d2 ++ '.' :: (d3 ++ q)))
         = d1 ++ '.' :: (d2 ++ '.' :: (d3 ++ q))) ∧
    ((parse_requirement_line_index "django==3.2  # Web framework").current_version
        = "3.2.0" ∧
     (parse_requirement_line_index "django==3.2  # Web framework").constraint
        = VersionConstraint.Pinned "3.2") :=
  ⟨parse_version_spec_pinned, parse_version_spec_ge, parse_version_spec_compatible,
   parse_version_spec_less, rfl, normalize_version_one, normalize_version_two,
   normalize_version_three, by decide, by decide⟩

/-- Witness for C8 at concrete version texts. -/
theorem parse_version_spec_normalization_witness :
    parse_version_spec ⟨'=' :: '=' :: "3.2".data⟩
      = (VersionConstraint.Pinned ⟨"3.2".data⟩, ⟨normalize_version "3.2".data⟩) ∧
    normalize_version "1.2.3".data = "1.2.3".data ∧
    parse_version_spec "==3.2" = (VersionConstraint.Pinned "3.2", "3.2.0") := by
  refine ⟨?_, ?_, ?_⟩
  · exact parse_version_spec_normalization.1 "3.2".data (by decide) (by decide) (by decide)
  · have h := parse_version_spec_normalization.2.2.2.2.2.2.2.1
      "1".data "2".data "3".data [] (by decide) (by decide) (by decide)
      (by decide) (by decide) (by decide) (Or.inl rfl)
    have e : "1.2.3".data = "1".data ++ '.' :: ("2".data ++ '.' :: ("3".data ++ [])) := by
      decide
    rw [e]
    exact h
  · have h := parse_version_spec_normalization.1 "3.2".data (by decide) (by decide) (by decide)
    have e1 : ("==3.2" : String) = ⟨'=' :: '=' :: "3.2".data⟩ := by decide
    have e2 : ((VersionConstraint.Pinned ⟨"3.2".data⟩, (⟨normalize_version "3.2".data⟩ : String)))
        = (VersionConstraint.Pinned "3.2", ("3.2.0" : String)) := by decide
    rw [e1, ← e2]
    exact h

end Pyelevate
